import Mathlib

/-!
Verification of the test-infrastructure utilities of the repository
(localnet/rpc_tests/utils.py, localnet/tests/utils.py, localnet/rpc_tests/txs.py).

Modelling conventions:
* A Python `str` is modelled as `List Char` (`PyStr`).
* A decoded JSON value (the result of `json.loads`) is the inductive `Json`
  below.  JSON numbers are modelled as integers (`Int`); no claim involves a
  float literal.  Python's `bool` is a subclass of `int`, which matters for
  `isinstance(x, int)` checks and is modelled explicitly where it occurs.
* `json.loads` itself is an external library call; functions that parse a raw
  response string take an abstract `parse : PyStr → Option Json` argument
  (`none` = `json.JSONDecodeError`).
* `pyhmy.account.is_valid_address` is an external library call; the validator
  takes it as an abstract `av : PyStr → Bool` argument.
* A Python function that can raise is modelled as returning `Except e a` (or
  `Bool` for assertion-style checkers, `false` = the assertion raises).
-/

abbrev PyStr := List Char

/-- The characters of a string literal, as the Python-string model. -/
def chars (s : String) : PyStr := s.data

/-- A decoded JSON value (the result of Python's `json.loads`).
Objects are association lists with distinct keys (Python dicts). -/
inductive Json where
  | null : Json
  | bool (b : Bool) : Json
  | num (n : Int) : Json
  | str (s : PyStr) : Json
  | arr (elems : List Json) : Json
  | obj (fields : List (PyStr × Json)) : Json
deriving Repr

/-- Python `d[k]` / `k in d.keys()` on a dict: first binding of the key. -/
def lookupJ (fields : List (PyStr × Json)) (k : PyStr) : Option Json :=
  match fields with
  | [] => none
  | (k', v) :: rest => if k' = k then some v else lookupJ rest k

deriving instance DecidableEq for Except

instance : Inhabited Json := ⟨Json.null⟩

instance : Nonempty Json := ⟨Json.null⟩

/-- Python `s.startswith("0x")` on the `List Char` model. -/
def startsWith0x (l : PyStr) : Bool := l.take 2 = chars "0x"

/-- Python `s.startswith("one1")` on the `List Char` model. -/
def startsWithOne1 (l : PyStr) : Bool := l.take 4 = chars "one1"

/-- Value of one hexadecimal digit, as accepted by Python's `bytes.fromhex`. -/
def hexDigitVal (c : Char) : Option Nat :=
  if '0' ≤ c ∧ c ≤ '9' then some (c.toNat - 48)
  else if 'a' ≤ c ∧ c ≤ 'f' then some (c.toNat - 87)
  else if 'A' ≤ c ∧ c ≤ 'F' then some (c.toNat - 55)
  else none

/-- Python `bytes.fromhex`: decode pairs of hex digits into bytes; `none` is the
`ValueError` raised on an odd tail or a non-hex character.  (The ASCII
whitespace skipping of CPython's `fromhex` is not modelled; no claim input
contains whitespace.) -/
def bytesFromHex : PyStr → Option (List Nat)
  | [] => some []
  | [_] => none
  | a :: b :: rest =>
    match hexDigitVal a, hexDigitVal b, bytesFromHex rest with
    | some hi, some lo, some bs => some ((16 * hi + lo) :: bs)
    | _, _, _ => none

/-- Gas cost per zero byte (`GAS_COST_ZERO_BYTE` in `get_calldata_gas`). -/
def GAS_COST_ZERO_BYTE : Nat := 4

/-- Gas cost per nonzero byte (`GAS_COST_NONZERO_BYTE` in `get_calldata_gas`). -/
def GAS_COST_NONZERO_BYTE : Nat := 16

/-- The error raised by `get_calldata_gas`: the explicit `ValueError` for an
odd hex-digit count, or the `ValueError` raised inside `bytes.fromhex`. -/
inductive CalldataError where
  | invalidLength (n : Nat) : CalldataError
  | invalidHex : CalldataError
deriving Repr, DecidableEq

/-- The `bytecode = bytecode[2:]` step of `get_calldata_gas`: remove one
leading `0x` if present. -/
def strip0x (l : PyStr) : PyStr := if startsWith0x l then l.drop 2 else l

/-- Source `localnet/rpc_tests/utils.py`, `get_calldata_gas`: strip an
optional `0x` prefix, reject an odd hex-digit count, decode, and charge 16
gas per nonzero byte and 4 per zero byte. -/
def get_calldata_gas (bytecode : PyStr) : Except CalldataError Nat :=
  let b := strip0x bytecode
  if b.length % 2 ≠ 0 then .error (.invalidLength b.length)
  else
    match bytesFromHex b with
    | none => .error .invalidHex
    | some bs =>
      .ok ((bs.map fun byte =>
        if byte ≠ 0 then GAS_COST_NONZERO_BYTE else GAS_COST_ZERO_BYTE).sum)


/-- Python `type(x)` restricted to decoded-JSON values. -/
inductive PyType where
  | pyNone | pyBool | pyInt | pyStr | pyList | pyDict
deriving DecidableEq, Repr

def pyTypeOf : Json → PyType
  | .null => .pyNone
  | .bool _ => .pyBool
  | .num _ => .pyInt
  | .str _ => .pyStr
  | .arr _ => .pyList
  | .obj _ => .pyDict

/-- Python `isinstance(v, t)` for decoded-JSON values: `bool` is a subclass
of `int`, so a boolean is an instance of `int`. -/
def pyIsInstance (v : Json) (t : PyType) : Bool :=
  pyTypeOf v = t || (pyTypeOf v = .pyBool && t = .pyInt)

namespace RpcTests

mutual

/-- Source `localnet/rpc_tests/utils.py`, `assert_valid_json_structure` (the
permissive variant).  `av` abstracts `pyhmy.account.is_valid_address`.
`true` = the call returns normally, `false` = some `assert` raises. -/
def assert_valid_json_structure (av : PyStr → Bool) : Json → Json → Bool
  | .null, _ => true
  | _, .null => true
  | .bool _, .bool _ => true
  | .num _, .num _ => true
  | .str s, .str t =>
    (if startsWith0x s then startsWith0x t else true) &&
    (if startsWithOne1 s && av s then av t else true)
  | .arr xs, .arr ys => checkElems av xs ys
  | .obj fs, .obj gs => checkFields av fs gs
  | _, _ => false

/-- The `for i in range(min(len(reference), len(candidate)))` loop. -/
def checkElems (av : PyStr → Bool) : List Json → List Json → Bool
  | x :: xs, y :: ys => assert_valid_json_structure av x y && checkElems av xs ys
  | _, _ => true

/-- The `for key in reference.keys()` loop. -/
def checkFields (av : PyStr → Bool) :
    List (PyStr × Json) → List (PyStr × Json) → Bool
  | [], _ => true
  | (k, v) :: rest, gs =>
    (match lookupJ gs k with
     | some w => assert_valid_json_structure av v w
     | none => false) && checkFields av rest gs

end

end RpcTests

namespace Tests

mutual

/-- Source `localnet/tests/utils.py`, `assert_valid_json_structure` (the stricter
sibling variant).  `true` = the call returns normally, `false` = some
`assert` raises. -/
def assert_valid_json_structure : Json → Json → Bool
  | .null, .null => true
  | .bool _, .bool _ => true
  | .num _, .num _ => true
  | .str _, .str _ => true
  | .arr xs, .arr ys => checkElems xs ys
  | .obj fs, .obj gs => checkFields fs gs
  | _, _ => false

/-- The `for i in range(min(len(reference), len(candidate)))` loop. -/
def checkElems : List Json → List Json → Bool
  | x :: xs, y :: ys => assert_valid_json_structure x y && checkElems xs ys
  | _, _ => true

/-- The `for key in reference.keys()` loop: key presence, an `isinstance`
check against the reference value's type, and recursion for dict/list
reference values only. -/
def checkFields : List (PyStr × Json) → List (PyStr × Json) → Bool
  | [], _ => true
  | (k, v) :: rest, gs =>
    (match lookupJ gs k with
     | some w =>
       pyIsInstance w (pyTypeOf v) &&
       (match v with
        | .obj _ => assert_valid_json_structure v w
        | .arr _ => assert_valid_json_structure v w
        | _ => true)
     | none => false) && checkFields rest gs

end

end Tests

mutual

/-- Relation stating that `candidate` is `reference` with extra dictionary keys and/or extra
trailing list elements added, at any nesting depth (the superset relation
of the spec's tolerance claim). -/
def jsonExtends : Json → Json → Bool
  | .null, .null => true
  | .bool a, .bool b => a = b
  | .num a, .num b => a = b
  | .str a, .str b => a = b
  | .arr xs, .arr ys => extendsElems xs ys
  | .obj fs, .obj gs => extendsFields fs gs
  | _, _ => false

def extendsElems : List Json → List Json → Bool
  | [], _ => true
  | _ :: _, [] => false
  | x :: xs, y :: ys => jsonExtends x y && extendsElems xs ys

def extendsFields : List (PyStr × Json) → List (PyStr × Json) → Bool
  | [], _ => true
  | (k, v) :: rest, gs =>
    (match lookupJ gs k with
     | some w => jsonExtends v w
     | none => false) && extendsFields rest gs

end

/-- Body of `is_valid_json_rpc` after `json.loads` succeeds: the sequential
field checks on the decoded value `d`.  A top-level JSON value that is not
an object makes the Python code raise `AttributeError` on `d.keys()`; every
claim only asks whether `True` is returned (or whether a caller raises), so
that case is modelled as `false`. -/
def envelopeOk (d : Json) : Bool :=
  match d with
  | .obj fields =>
    match lookupJ fields (chars "jsonrpc") with
    | none => false
    | some v =>
      match v with
      | .str s =>
        if s ≠ chars "2.0" then false
        else if (lookupJ fields (chars "result")).isSome then
          (lookupJ fields (chars "id")).isSome
        else
          match lookupJ fields (chars "error") with
          | some (.obj efields) =>
            (match lookupJ efields (chars "code") with
             | some c => pyIsInstance c .pyInt
             | none => false) &&
            (match lookupJ efields (chars "message") with
             | some (.str _) => true
             | _ => false)
          | some _ => false
          | none => false
      | _ => false
  | _ => false

/-- Function `is_valid_json_rpc` (identical in `localnet/rpc_tests/utils.py`
and `localnet/tests/utils.py`).  `parse` abstracts `json.loads`; a decode
error (`none`) yields `False`, otherwise the decoded value is checked. -/
def is_valid_json_rpc (parse : PyStr → Option Json) (response : PyStr) : Bool :=
  match parse response with
  | none => false
  | some d => envelopeOk d

/-- The distinct raise sites of `check_and_unpack_rpc_response`. -/
inductive RpcError where
  | noResponse
  | invalidResponse
  | missingError
  | missingResult
deriving Repr, DecidableEq

/-- Function `check_and_unpack_rpc_response` (identical in
`localnet/rpc_tests/utils.py` and `localnet/tests/utils.py`).  Python's
`if not response` is the emptiness test on the string model. -/
def check_and_unpack_rpc_response (parse : PyStr → Option Json)
    (response : PyStr) (expect_error : Bool) : Except RpcError Json :=
  if response = [] then .error .noResponse
  else if is_valid_json_rpc parse response = false then .error .invalidResponse
  else
    match parse response with
    | some (.obj fields) =>
      if expect_error then
        match lookupJ fields (chars "error") with
        | some e => .ok e
        | none => .error .missingError
      else
        match lookupJ fields (chars "result") with
        | some r => .ok r
        | none => .error .missingResult
    | _ => .error .invalidResponse

namespace Txs

/-- Result of one call to an era function: the returned boolean, the new
value of the cached module-global flag, and whether the chain was queried. -/
structure EraCall where
  result : Bool
  flag : Bool
  queried : Bool
deriving Repr, DecidableEq

/-- Source `localnet/rpc_tests/txs.py`, `is_cross_shard_era`: `flag` is the module
global `_is_cross_shard_era` (initially `False`); `epochs` are the values of
`blockchain.get_current_epoch(e)` for the configured endpoints. -/
def is_cross_shard_era (flag : Bool) (epochs : List Int) : EraCall :=
  if flag then ⟨true, flag, false⟩
  else if epochs.all fun e => 1 ≤ e then ⟨true, true, true⟩
  else ⟨false, flag, true⟩

/-- Source `localnet/rpc_tests/txs.py`, `is_staking_era`: `flag` is the module
global `_is_staking_era` (initially `False`); `threshold` is
`blockchain.get_prestaking_epoch(endpoints[beacon_shard_id])`.  When the
condition first holds the body sets the flag but falls through to
`return False`. -/
def is_staking_era (flag : Bool) (threshold : Int) (epochs : List Int) : EraCall :=
  if flag then ⟨true, flag, false⟩
  else if epochs.all fun e => threshold ≤ e then ⟨false, true, true⟩
  else ⟨false, flag, true⟩

end Txs


mutual

/-- Predicate: every object inside the value has pairwise-distinct keys, as
is automatic for a value decoded from JSON by Python (dict keys are unique).
Model values with duplicate keys correspond to no Python value. -/
def keysNodup : Json → Bool
  | .null => true
  | .bool _ => true
  | .num _ => true
  | .str _ => true
  | .arr xs => keysNodupElems xs
  | .obj fs => keysNodupFields fs

/-- Elementwise `keysNodup` over a list of values. -/
def keysNodupElems : List Json → Bool
  | [] => true
  | x :: xs => keysNodup x && keysNodupElems xs

/-- Fieldwise `keysNodup`: the head key does not recur, recursively. -/
def keysNodupFields : List (PyStr × Json) → Bool
  | [] => true
  | (k, v) :: rest =>
    (lookupJ rest k).isNone && keysNodup v && keysNodupFields rest

end

/-- The pairs (sub-reference, sub-candidate) that a call of the permissive
`assert_valid_json_structure reference candidate` recursively compares: the
pair itself, dict entries under a shared key, and elements at a shared list
position. -/
inductive Reaches : Json → Json → Json → Json → Prop where
  | here (r c : Json) : Reaches r c r c
  | objField {r c : Json} {fs gs : List (PyStr × Json)} {k : PyStr}
      {v w : Json} :
      Reaches r c (.obj fs) (.obj gs) → (k, v) ∈ fs →
      lookupJ gs k = some w → Reaches r c v w
  | arrElem {r c : Json} {xs ys : List Json} {i : Nat}
      (hx : i < xs.length) (hy : i < ys.length) :
      Reaches r c (.arr xs) (.arr ys) →
      Reaches r c (xs.get ⟨i, hx⟩) (ys.get ⟨i, hy⟩)

/-- Fixture: a reference shape with a hex-tagged string and a list. -/
def refW : Json :=
  .obj [(chars "balance", .str (chars "0x1a")), (chars "vals", .arr [.num 1])]

/-- Fixture: `refW` plus an extra key and an extra trailing list element. -/
def candW : Json :=
  .obj [(chars "balance", .str (chars "0x1a")),
        (chars "vals", .arr [.num 1, .num 2]), (chars "extra", .null)]

/-- Fixture: a well-formed success envelope. -/
def envG : List (PyStr × Json) :=
  [(chars "jsonrpc", .str (chars "2.0")), (chars "id", .num 1),
   (chars "result", .num 7)]

/-- Fixture: a well-formed error envelope. -/
def envE : List (PyStr × Json) :=
  [(chars "jsonrpc", .str (chars "2.0")),
   (chars "error", .obj [(chars "code", .num (-32602)),
                         (chars "message", .str (chars "bad"))])]

/-- Fixture: a parse function (model of `json.loads`) returning `envG` for
the text `"good"`, `envE` for `"err"`, and a decode error otherwise. -/
def parseW : PyStr → Option Json := fun s =>
  if s = chars "good" then some (.obj envG)
  else if s = chars "err" then some (.obj envE)
  else none

/-- Fixture: an envelope carrying BOTH `result` and `error`. -/
def bothFields : List (PyStr × Json) :=
  [(chars "jsonrpc", .str (chars "2.0")), (chars "id", .num 1),
   (chars "result", .null),
   (chars "error", .obj [(chars "code", .num 1),
                         (chars "message", .str (chars "m"))])]

/-- Fixture: a parse function returning the both-result-and-error envelope
(the decoded form of the corresponding JSON text). -/
def parseBoth : PyStr → Option Json := fun _ => some (.obj bothFields)

/-! Induction principle for the nested inductive `Json`. -/

theorem Json.inductionOn (P : Json → Prop)
    (hnull : P .null) (hbool : ∀ b, P (.bool b)) (hnum : ∀ n, P (.num n))
    (hstr : ∀ s, P (.str s))
    (harr : ∀ xs, (∀ x ∈ xs, P x) → P (.arr xs))
    (hobj : ∀ fs, (∀ kv ∈ fs, P kv.2) → P (.obj fs)) : ∀ v, P v
  | .null => hnull
  | .bool b => hbool b
  | .num n => hnum n
  | .str s => hstr s
  | .arr xs => harr xs (fun x hx =>
      Json.inductionOn P hnull hbool hnum hstr harr hobj x)
  | .obj fs => hobj fs (fun kv hkv =>
      Json.inductionOn P hnull hbool hnum hstr harr hobj kv.2)
termination_by v => sizeOf v
decreasing_by
  · exact Nat.lt_trans (List.sizeOf_lt_of_mem hx) (by simp)
  · have h1 : sizeOf kv.2 < sizeOf kv := by
      obtain ⟨a, b⟩ := kv
      simp
    exact Nat.lt_trans (Nat.lt_trans h1 (List.sizeOf_lt_of_mem hkv)) (by simp)

/-! Facts about `bytesFromHex` and the gas sum, used for C1. -/

theorem bytesFromHex_length : ∀ (l : PyStr) (bs : List Nat),
    bytesFromHex l = some bs → l.length = 2 * bs.length
  | [], bs, h => by
    simp only [bytesFromHex, Option.some.injEq] at h
    subst h
    rfl
  | [c], bs, h => by
    simp [bytesFromHex] at h
  | a :: b :: rest, bs, h => by
    simp only [bytesFromHex] at h
    cases ha : hexDigitVal a <;> rw [ha] at h <;>
      cases hb : hexDigitVal b <;> rw [hb] at h <;>
        cases hr : bytesFromHex rest <;> rw [hr] at h <;> simp at h
    subst h
    have := bytesFromHex_length rest _ hr
    simp [List.length_cons]
    omega

theorem gas_map_sum (bs : List Nat) :
    (bs.map fun byte =>
      if byte ≠ 0 then GAS_COST_NONZERO_BYTE else GAS_COST_ZERO_BYTE).sum
      = 4 * bs.countP (· = 0) + 16 * bs.countP (· ≠ 0) := by
  induction bs with
  | nil => rfl
  | cons b rest ih =>
    simp only [List.map_cons, List.sum_cons, List.countP_cons, ih]
    by_cases hb : b = 0
    · subst hb
      simp [GAS_COST_ZERO_BYTE]
      omega
    · simp [hb, GAS_COST_NONZERO_BYTE]
      omega

/-- C1: for every input whose stripped form decodes as an even-length hex
string, `get_calldata_gas` returns 4 gas per zero byte plus 16 per nonzero
byte of the decoded byte string; for every input whose stripped form has an
odd hex-digit count, it fails with the length error. -/
theorem get_calldata_gas_spec (s : PyStr) :
    (∀ bs, bytesFromHex (strip0x s) = some bs →
      get_calldata_gas s =
        .ok (4 * bs.countP (· = 0) + 16 * bs.countP (· ≠ 0)))
  ∧ ((strip0x s).length % 2 = 1 →
      get_calldata_gas s = .error (.invalidLength (strip0x s).length)) := by
  constructor
  · intro bs hbs
    have hlen : (strip0x s).length = 2 * bs.length := bytesFromHex_length _ _ hbs
    have heven : ¬((strip0x s).length % 2 ≠ 0) := by omega
    simp only [get_calldata_gas, hbs, gas_map_sum, heven, if_false]
  · intro hodd
    have h1 : (strip0x s).length % 2 ≠ 0 := by omega
    simp only [get_calldata_gas]
    rw [if_pos h1]

/-- Witness for C1 at the concrete inputs `"0x0001"` (valid, one zero byte
and one nonzero byte) and `"abc"` (odd digit count). -/
theorem get_calldata_gas_spec_witness :
    get_calldata_gas (chars "0x0001") = .ok 20 ∧
    get_calldata_gas (chars "abc") = .error (.invalidLength 3) := by
  constructor
  · have h := (get_calldata_gas_spec (chars "0x0001")).1 [0, 1] (by decide)
    simpa using h
  · have h := (get_calldata_gas_spec (chars "abc")).2 (by decide)
    simpa using h

/-- C8 counterexample: prefix-insensitivity fails for an input that itself
begins with `0x`.  For `s = "0x00"`, `get_calldata_gas s = 80 / 4` gas for
the zero byte, but `get_calldata_gas ("0x" ++ s)` strips only the first
prefix, and `bytes.fromhex "0x00"` fails on the `x`, so the two outcomes
differ. -/
theorem get_calldata_gas_prefix_counterexample :
    get_calldata_gas (chars "0x" ++ chars "0x00") = .error .invalidHex ∧
    get_calldata_gas (chars "0x00") = .ok 4 ∧
    (get_calldata_gas (chars "0x" ++ chars "0x00") ==
      get_calldata_gas (chars "0x00")) = false := by
  refine ⟨rfl, rfl, by decide⟩

/-- C8 (amended): for every input `s` that does not itself start with
`"0x"`, `get_calldata_gas ("0x" ++ s)` has exactly the same outcome (value
or failure) as `get_calldata_gas s`.  When `s` starts with `"0x"` only the
first prefix is stripped, so the outcomes can differ. -/
theorem get_calldata_gas_prefix_insensitive (s : PyStr)
    (h : startsWith0x s = false) :
    get_calldata_gas (chars "0x" ++ s) = get_calldata_gas s := by
  have h1 : strip0x (chars "0x" ++ s) = s := by
    simp [strip0x, startsWith0x, chars, List.take]
  have h2 : strip0x s = s := by
    simp [strip0x, h]
  simp only [get_calldata_gas, h1, h2]

/-- Witness for C8 (amended) at `s = "ab"`. -/
theorem get_calldata_gas_prefix_insensitive_witness :
    get_calldata_gas (chars "0x" ++ chars "ab") = get_calldata_gas (chars "ab") :=
  get_calldata_gas_prefix_insensitive (chars "ab") (by decide)

/-- C10: the even-length input `"zz00"` contains non-hex characters, so
`get_calldata_gas` fails inside `bytes.fromhex` with an error distinct from
the documented odd-length error. -/
theorem get_calldata_gas_nonhex_error :
    get_calldata_gas (chars "zz00") = .error .invalidHex ∧
    (CalldataError.invalidHex == CalldataError.invalidLength 4) = false := by
  refine ⟨rfl, by decide⟩

/-- C9: behaviour of the cached era flags.  `is_cross_shard_era` returns
`True`, sets the flag and has queried the chain on the very call that first
observes every endpoint at or past epoch 1, and once the flag is set every
call returns `True` without querying; `is_staking_era` however returns
`False` on the very call that first observes the condition, even though it
sets the cached flag (the body falls through to `return False`), and only
subsequent calls return `True` from the cache. -/
theorem era_flags_first_observation :
    Txs.is_cross_shard_era false [1, 2] = ⟨true, true, true⟩ ∧
    Txs.is_staking_era false 2 [2, 3] = ⟨false, true, true⟩ ∧
    (∀ (epochs : List Int), Txs.is_cross_shard_era true epochs = ⟨true, true, false⟩) ∧
    (∀ (threshold : Int) (epochs : List Int),
      Txs.is_staking_era true threshold epochs = ⟨true, true, false⟩) := by
  refine ⟨by decide, by decide, fun _ => rfl, fun _ _ => rfl⟩

/-! Failure propagation through the permissive validator, used for C5. -/

theorem RpcTests.checkFields_false (av : PyStr → Bool)
    {fs gs : List (PyStr × Json)} {k : PyStr} {v w : Json}
    (hmem : (k, v) ∈ fs) (hlook : lookupJ gs k = some w)
    (hfalse : RpcTests.assert_valid_json_structure av v w = false) :
    RpcTests.checkFields av fs gs = false := by
  induction fs with
  | nil => cases hmem
  | cons kv rest ih =>
    obtain ⟨k0, v0⟩ := kv
    rcases List.mem_cons.mp hmem with heq | hmem'
    · cases heq
      simp [RpcTests.checkFields, hlook, hfalse]
    · simp [RpcTests.checkFields, ih hmem']

theorem RpcTests.checkFields_missing (av : PyStr → Bool)
    {fs gs : List (PyStr × Json)} {k : PyStr} {v : Json}
    (hmem : (k, v) ∈ fs) (hnone : lookupJ gs k = none) :
    RpcTests.checkFields av fs gs = false := by
  induction fs with
  | nil => cases hmem
  | cons kv rest ih =>
    obtain ⟨k0, v0⟩ := kv
    rcases List.mem_cons.mp hmem with heq | hmem'
    · cases heq
      simp [RpcTests.checkFields, hnone]
    · simp [RpcTests.checkFields, ih hmem']

theorem RpcTests.checkElems_false (av : PyStr → Bool) :
    ∀ {xs ys : List Json} {i : Nat} (hx : i < xs.length) (hy : i < ys.length),
    RpcTests.assert_valid_json_structure av (xs.get ⟨i, hx⟩) (ys.get ⟨i, hy⟩) = false →
    RpcTests.checkElems av xs ys = false := by
  intro xs
  induction xs with
  | nil => intro ys i hx hy hf; exact absurd hx (Nat.not_lt_zero i)
  | cons x xs ih =>
    intro ys i hx hy hf
    cases ys with
    | nil => exact absurd hy (Nat.not_lt_zero i)
    | cons y ys =>
      cases i with
      | zero =>
        simp only [List.get] at hf
        simp [RpcTests.checkElems, hf]
      | succ i =>
        simp only [List.get] at hf
        have := ih (Nat.lt_of_succ_lt_succ hx) (Nat.lt_of_succ_lt_succ hy) hf
        simp [RpcTests.checkElems, this]

theorem RpcTests.reaches_false (av : PyStr → Bool) {r c a b : Json}
    (h : Reaches r c a b) :
    RpcTests.assert_valid_json_structure av a b = false →
    RpcTests.assert_valid_json_structure av r c = false := by
  induction h with
  | here => exact fun hf => hf
  | objField hr hmem hlook ih =>
    intro hf
    apply ih
    simp only [RpcTests.assert_valid_json_structure]
    exact RpcTests.checkFields_false av hmem hlook hf
  | arrElem hx hy hr ih =>
    intro hf
    apply ih
    simp only [RpcTests.assert_valid_json_structure]
    exact RpcTests.checkElems_false av hx hy hf

/-- C5: the permissive `assert_valid_json_structure` raises whenever the
recursion reaches a reference/candidate pair in which (a) a reference dict
key is absent from the candidate dict, or (b) the reference string starts
with `"0x"` and the candidate string does not, or (c) the reference string
starts with `"one1"` and is a valid address while the candidate string is
not. -/
theorem assert_valid_json_structure_raises (av : PyStr → Bool)
    (r c rsub csub : Json) (hreach : Reaches r c rsub csub)
    (hviol :
      (∃ fs gs k v, rsub = .obj fs ∧ csub = .obj gs ∧ (k, v) ∈ fs ∧
        lookupJ gs k = none)
      ∨ (∃ s t, rsub = .str s ∧ csub = .str t ∧ startsWith0x s = true ∧
          startsWith0x t = false)
      ∨ (∃ s t, rsub = .str s ∧ csub = .str t ∧ startsWithOne1 s = true ∧
          av s = true ∧ av t = false)) :
    RpcTests.assert_valid_json_structure av r c = false := by
  apply RpcTests.reaches_false av hreach
  rcases hviol with ⟨fs, gs, k, v, rfl, rfl, hmem, hnone⟩ |
    ⟨s, t, rfl, rfl, h0, ht⟩ | ⟨s, t, rfl, rfl, h1, h2, h3⟩
  · simp only [RpcTests.assert_valid_json_structure]
    exact RpcTests.checkFields_missing av hmem hnone
  · simp [RpcTests.assert_valid_json_structure, h0, ht]
  · simp [RpcTests.assert_valid_json_structure, h1, h2, h3]

/-- Witness for C5: a nested hex-tag violation at key `"k"`. -/
theorem assert_valid_json_structure_raises_witness :
    RpcTests.assert_valid_json_structure (fun _ => true)
      (.obj [(chars "k", .str (chars "0xab"))])
      (.obj [(chars "k", .str (chars "ff"))]) = false := by
  apply assert_valid_json_structure_raises (fun _ => true) _ _
    (.str (chars "0xab")) (.str (chars "ff"))
  · exact Reaches.objField (k := chars "k") (Reaches.here _ _)
      (List.mem_singleton.mpr rfl) rfl
  · right
    left
    exact ⟨_, _, rfl, rfl, by decide, by decide⟩

/-! Superset tolerance of the permissive validator, used for C4. -/

theorem keysNodupFields_lookup : ∀ {fs : List (PyStr × Json)} {k : PyStr}
    {v : Json}, keysNodupFields fs = true → (k, v) ∈ fs →
    lookupJ fs k = some v := by
  intro fs
  induction fs with
  | nil => intro k v _ hm; cases hm
  | cons kv rest ih =>
    obtain ⟨k0, v0⟩ := kv
    intro k v hnd hm
    simp only [keysNodupFields, Bool.and_eq_true] at hnd
    obtain ⟨⟨hn0, _⟩, hnd'⟩ := hnd
    rcases List.mem_cons.mp hm with heq | hm'
    · cases heq
      simp [lookupJ]
    · have hlk : lookupJ rest k = some v := ih hnd' hm'
      have hne : k0 ≠ k := by
        intro hkk
        subst hkk
        rw [hlk] at hn0
        simp at hn0
      simp [lookupJ, hne, hlk]

theorem keysNodupFields_values {fs : List (PyStr × Json)} {k : PyStr}
    {v : Json} (hnd : keysNodupFields fs = true) (hm : (k, v) ∈ fs) :
    keysNodup v = true := by
  induction fs with
  | nil => cases hm
  | cons kv rest ih =>
    obtain ⟨k0, v0⟩ := kv
    simp only [keysNodupFields, Bool.and_eq_true] at hnd
    obtain ⟨⟨_, hv0⟩, hnd'⟩ := hnd
    rcases List.mem_cons.mp hm with heq | hm'
    · cases heq
      exact hv0
    · exact ih hnd' hm'

theorem extendsElems_self : ∀ (xs : List Json),
    (∀ x ∈ xs, keysNodup x = true → jsonExtends x x = true) →
    keysNodupElems xs = true → extendsElems xs xs = true := by
  intro xs
  induction xs with
  | nil => intro _ _; rfl
  | cons x rest ih =>
    intro hIH hnd
    simp only [keysNodupElems, Bool.and_eq_true] at hnd
    simp only [extendsElems, Bool.and_eq_true]
    refine ⟨hIH x (List.mem_cons_self x rest) hnd.1, ?_⟩
    exact ih (fun y hy => hIH y (List.mem_cons_of_mem x hy)) hnd.2

theorem extendsFields_of_lookup : ∀ (fs gs : List (PyStr × Json)),
    (∀ k v, (k, v) ∈ fs → lookupJ gs k = some v) →
    (∀ kv ∈ fs, jsonExtends kv.2 kv.2 = true) →
    extendsFields fs gs = true := by
  intro fs
  induction fs with
  | nil => intro _ _ _; rfl
  | cons kv rest ih =>
    obtain ⟨k0, v0⟩ := kv
    intro gs hlk hx
    simp only [extendsFields, Bool.and_eq_true]
    constructor
    · rw [hlk k0 v0 (List.mem_cons_self _ _)]
      exact hx (k0, v0) (List.mem_cons_self _ _)
    · exact ih gs (fun k v hm => hlk k v (List.mem_cons_of_mem _ hm))
        (fun kv hm => hx kv (List.mem_cons_of_mem _ hm))

theorem jsonExtends_refl : ∀ (v : Json), keysNodup v = true →
    jsonExtends v v = true := by
  intro v
  induction v using Json.inductionOn with
  | hnull => intro _; rfl
  | hbool b => intro _; simp [jsonExtends]
  | hnum n => intro _; simp [jsonExtends]
  | hstr s => intro _; simp [jsonExtends]
  | harr xs hIH =>
    intro hnd
    simp only [keysNodup] at hnd
    simp only [jsonExtends]
    exact extendsElems_self xs hIH hnd
  | hobj fs hIH =>
    intro hnd
    simp only [keysNodup] at hnd
    simp only [jsonExtends]
    exact extendsFields_of_lookup fs fs
      (fun k v hm => keysNodupFields_lookup hnd hm)
      (fun kv hm => hIH kv hm (keysNodupFields_values hnd hm))

theorem extends_checkElems (av : PyStr → Bool) : ∀ (xs ys : List Json),
    (∀ x ∈ xs, ∀ c, jsonExtends x c = true →
      RpcTests.assert_valid_json_structure av x c = true) →
    extendsElems xs ys = true → RpcTests.checkElems av xs ys = true := by
  intro xs
  induction xs with
  | nil => intro ys _ _; cases ys <;> rfl
  | cons x rest ih =>
    intro ys hIH hx
    cases ys with
    | nil => simp [extendsElems] at hx
    | cons y ys =>
      simp only [extendsElems, Bool.and_eq_true] at hx
      simp only [RpcTests.checkElems, Bool.and_eq_true]
      refine ⟨hIH x (List.mem_cons_self _ _) y hx.1, ?_⟩
      exact ih ys (fun z hz => hIH z (List.mem_cons_of_mem _ hz)) hx.2

theorem extends_checkFields (av : PyStr → Bool) :
    ∀ (fs gs : List (PyStr × Json)),
    (∀ kv ∈ fs, ∀ c, jsonExtends kv.2 c = true →
      RpcTests.assert_valid_json_structure av kv.2 c = true) →
    extendsFields fs gs = true → RpcTests.checkFields av fs gs = true := by
  intro fs
  induction fs with
  | nil => intro gs _ _; rfl
  | cons kv rest ih =>
    obtain ⟨k0, v0⟩ := kv
    intro gs hIH hx
    simp only [extendsFields, Bool.and_eq_true] at hx
    obtain ⟨h1, h2⟩ := hx
    simp only [RpcTests.checkFields, Bool.and_eq_true]
    constructor
    · cases hl : lookupJ gs k0 with
      | none => rw [hl] at h1; simp at h1
      | some w =>
        rw [hl] at h1
        exact hIH (k0, v0) (List.mem_cons_self _ _) w h1
    · exact ih gs (fun z hz => hIH z (List.mem_cons_of_mem _ hz)) h2

theorem jsonExtends_valid (av : PyStr → Bool) : ∀ (r c : Json),
    jsonExtends r c = true →
    RpcTests.assert_valid_json_structure av r c = true := by
  intro r
  induction r using Json.inductionOn with
  | hnull => intro c _; cases c <;> rfl
  | hbool b => intro c h; cases c <;> simp_all [jsonExtends,
      RpcTests.assert_valid_json_structure]
  | hnum n => intro c h; cases c <;> simp_all [jsonExtends,
      RpcTests.assert_valid_json_structure]
  | hstr s =>
    intro c h
    cases c <;> simp [jsonExtends] at h
    case str t =>
      subst h
      simp only [RpcTests.assert_valid_json_structure, Bool.and_eq_true]
      constructor
      · split
        · assumption
        · rfl
      · split
        · rename_i hcond
          exact hcond.2
        · rfl
  | harr xs hIH =>
    intro c h
    cases c <;> simp only [jsonExtends] at h <;>
      try exact Bool.noConfusion h
    case arr ys =>
      simp only [RpcTests.assert_valid_json_structure]
      exact extends_checkElems av xs ys hIH h
  | hobj fs hIH =>
    intro c h
    cases c <;> simp only [jsonExtends] at h <;>
      try exact Bool.noConfusion h
    case obj gs =>
      simp only [RpcTests.assert_valid_json_structure]
      exact extends_checkFields av fs gs hIH h

/-- C4: the permissive `assert_valid_json_structure` passes on every pair
`(v, v)` (reflexivity; `keysNodup` states the dict-key uniqueness that every
Python-decoded JSON value has), and passes whenever the candidate extends
the reference by extra dict keys and/or extra trailing list elements at any
nesting depth. -/
theorem assert_valid_json_structure_superset (av : PyStr → Bool) :
    (∀ v, keysNodup v = true →
      RpcTests.assert_valid_json_structure av v v = true)
    ∧ (∀ r c, jsonExtends r c = true →
      RpcTests.assert_valid_json_structure av r c = true) :=
  ⟨fun v hv => jsonExtends_valid av v v (jsonExtends_refl v hv),
   fun r c h => jsonExtends_valid av r c h⟩

/-- Witness for C4 at a concrete reference and superset candidate. -/
theorem assert_valid_json_structure_superset_witness :
    RpcTests.assert_valid_json_structure (fun _ => true) refW refW = true ∧
    RpcTests.assert_valid_json_structure (fun _ => true) refW candW = true :=
  ⟨(assert_valid_json_structure_superset (fun _ => true)).1 refW (by decide),
   (assert_valid_json_structure_superset (fun _ => true)).2 refW candW
     (by decide)⟩

/-- C6 counterexample: in the stricter variant (`localnet/tests/utils.py`)
a `None` reference does NOT pass against a non-null candidate: the leading
type-equality assert raises.  This falsifies the claim that null trivially
passes in both variants. -/
theorem null_wildcard_counterexample :
    Tests.assert_valid_json_structure .null (.num 1) = false := rfl

/-- C6 (amended): the permissive variant passes whenever either side is
null, for every value of the other side; the stricter variant has no null
short-circuit: it passes when both sides are null but raises whenever
exactly one side is null. -/
theorem null_wildcard :
    (∀ (av : PyStr → Bool) (v : Json),
      RpcTests.assert_valid_json_structure av .null v = true ∧
      RpcTests.assert_valid_json_structure av v .null = true)
    ∧ Tests.assert_valid_json_structure .null .null = true
    ∧ (∀ v : Json, (pyTypeOf v == PyType.pyNone) = false →
        Tests.assert_valid_json_structure .null v = false ∧
        Tests.assert_valid_json_structure v .null = false) := by
  refine ⟨fun av v => ⟨?_, ?_⟩, rfl, fun v hv => ⟨?_, ?_⟩⟩
  · cases v <;> rfl
  · cases v <;> rfl
  · cases v <;> simp_all [Tests.assert_valid_json_structure, pyTypeOf]
  · cases v <;> simp_all [Tests.assert_valid_json_structure, pyTypeOf]

/-- Witness for C6 (amended) at `v = 1`. -/
theorem null_wildcard_witness :
    Tests.assert_valid_json_structure (.num 1) .null = false ∧
    RpcTests.assert_valid_json_structure (fun _ => true) .null (.num 1) = true :=
  ⟨(null_wildcard.2.2 (.num 1) (by decide)).2,
   (null_wildcard.1 (fun _ => true) (.num 1)).1⟩

/-- C7 counterexample: the stricter variant uses `isinstance`, and Python's
`bool` is a subclass of `int`, so a boolean candidate value where the
reference value is an integer is ACCEPTED, contradicting the claim that it
must be rejected. -/
theorem strict_type_counterexample :
    Tests.assert_valid_json_structure
      (.obj [(chars "a", .num 1)]) (.obj [(chars "a", .bool true)]) = true := rfl

/-- C7 (amended): the stricter variant passes on two dicts only if every
reference key exists in the candidate and the candidate's value for that
key is an `isinstance` of the Python type of the reference's value — where
`bool` counts as an instance of `int` — with dict- and list-valued entries
checked recursively. -/
theorem strict_validator_key_types (fs gs : List (PyStr × Json))
    (h : Tests.assert_valid_json_structure (.obj fs) (.obj gs) = true) :
    ∀ k v, (k, v) ∈ fs →
      ∃ w, lookupJ gs k = some w ∧ pyIsInstance w (pyTypeOf v) = true := by
  simp only [Tests.assert_valid_json_structure] at h
  induction fs with
  | nil => intro k v hm; cases hm
  | cons kv rest ih =>
    obtain ⟨k0, v0⟩ := kv
    simp only [Tests.checkFields, Bool.and_eq_true] at h
    obtain ⟨h1, h2⟩ := h
    intro k v hm
    rcases List.mem_cons.mp hm with heq | hm'
    · cases heq
      cases hl : lookupJ gs k0 with
      | none => rw [hl] at h1; simp at h1
      | some w =>
        rw [hl] at h1
        simp only [Bool.and_eq_true] at h1
        exact ⟨w, rfl, h1.1⟩
    · exact ih h2 k v hm'

/-- Witness for C7 (amended): integer reference value, boolean candidate. -/
theorem strict_validator_key_types_witness :
    ∃ w, lookupJ [(chars "a", Json.bool true)] (chars "a") = some w ∧
      pyIsInstance w (pyTypeOf (Json.num 1)) = true :=
  strict_validator_key_types [(chars "a", Json.num 1)]
    [(chars "a", Json.bool true)] rfl (chars "a") (Json.num 1)
    (List.mem_singleton.mpr rfl)

/-- C2: `check_and_unpack_rpc_response` returns exactly the parsed
envelope's `result` on a well-formed success envelope with
`expect_error = False`, exactly its `error` object on a well-formed error
envelope with `expect_error = True`, and raises for empty input, for input
that does not decode as JSON, and for an envelope lacking the expected
`result`/`error` key. -/
theorem check_and_unpack_rpc_response_spec (parse : PyStr → Option Json)
    (resp : PyStr) (ee : Bool) :
    (resp = [] →
      check_and_unpack_rpc_response parse resp ee = .error .noResponse)
  ∧ (parse resp = none →
      ∃ err, check_and_unpack_rpc_response parse resp ee = .error err)
  ∧ (∀ fields r, resp ≠ [] → parse resp = some (.obj fields) →
      is_valid_json_rpc parse resp = true → ee = false →
      lookupJ fields (chars "result") = some r →
      check_and_unpack_rpc_response parse resp ee = .ok r)
  ∧ (∀ fields e, resp ≠ [] → parse resp = some (.obj fields) →
      is_valid_json_rpc parse resp = true → ee = true →
      lookupJ fields (chars "error") = some e →
      check_and_unpack_rpc_response parse resp ee = .ok e)
  ∧ (∀ fields, parse resp = some (.obj fields) → ee = true →
      lookupJ fields (chars "error") = none →
      ∃ err, check_and_unpack_rpc_response parse resp ee = .error err)
  ∧ (∀ fields, parse resp = some (.obj fields) → ee = false →
      lookupJ fields (chars "result") = none →
      ∃ err, check_and_unpack_rpc_response parse resp ee = .error err) := by
  refine ⟨?_, ?_, ?_, ?_, ?_, ?_⟩
  · intro h
    simp [check_and_unpack_rpc_response, h]
  · intro hp
    by_cases hr : resp = []
    · exact ⟨.noResponse, by simp [check_and_unpack_rpc_response, hr]⟩
    · refine ⟨.invalidResponse, ?_⟩
      have hv : is_valid_json_rpc parse resp = false := by
        simp [is_valid_json_rpc, hp]
      simp [check_and_unpack_rpc_response, hr, hv]
  · intro fields r hne hp hv hee hlk
    subst hee
    simp [check_and_unpack_rpc_response, hne, hv, hp, hlk]
  · intro fields e hne hp hv hee hlk
    subst hee
    simp [check_and_unpack_rpc_response, hne, hv, hp, hlk]
  · intro fields hp hee hlk
    subst hee
    by_cases hr : resp = []
    · exact ⟨.noResponse, by simp [check_and_unpack_rpc_response, hr]⟩
    · cases hv : is_valid_json_rpc parse resp
      · exact ⟨.invalidResponse,
          by simp [check_and_unpack_rpc_response, hr, hv]⟩
      · exact ⟨.missingError,
          by simp [check_and_unpack_rpc_response, hr, hv, hp, hlk]⟩
  · intro fields hp hee hlk
    subst hee
    by_cases hr : resp = []
    · exact ⟨.noResponse, by simp [check_and_unpack_rpc_response, hr]⟩
    · cases hv : is_valid_json_rpc parse resp
      · exact ⟨.invalidResponse,
          by simp [check_and_unpack_rpc_response, hr, hv]⟩
      · exact ⟨.missingResult,
          by simp [check_and_unpack_rpc_response, hr, hv, hp, hlk]⟩

/-- Witness for C2 at the fixture envelopes: success unpack, error unpack,
empty input, non-JSON input, and an expectation mismatch. -/
theorem check_and_unpack_rpc_response_spec_witness :
    check_and_unpack_rpc_response parseW (chars "good") false = .ok (.num 7) ∧
    check_and_unpack_rpc_response parseW (chars "err") true =
      .ok (.obj [(chars "code", .num (-32602)),
                 (chars "message", .str (chars "bad"))]) ∧
    check_and_unpack_rpc_response parseW [] false = .error .noResponse ∧
    (∃ err, check_and_unpack_rpc_response parseW (chars "nope") true =
      .error err) ∧
    (∃ err, check_and_unpack_rpc_response parseW (chars "good") true =
      .error err) := by
  refine ⟨?_, ?_, ?_, ?_, ?_⟩
  · exact (check_and_unpack_rpc_response_spec parseW (chars "good") false).2.2.1
      envG (.num 7) (by decide) rfl (by decide) rfl rfl
  · exact (check_and_unpack_rpc_response_spec parseW (chars "err") true).2.2.2.1
      envE (.obj [(chars "code", .num (-32602)),
                  (chars "message", .str (chars "bad"))])
      (by decide) rfl (by decide) rfl rfl
  · exact (check_and_unpack_rpc_response_spec parseW [] false).1 rfl
  · exact (check_and_unpack_rpc_response_spec parseW (chars "nope") true).2.1 rfl
  · exact (check_and_unpack_rpc_response_spec parseW
      (chars "good") true).2.2.2.2.1 envG rfl rfl rfl

/-- C3 counterexample: an envelope carrying BOTH `result` and `error` (with
`jsonrpc: "2.0"` and an `id`) is accepted by `is_valid_json_rpc`, because
the code takes the `result` branch first and never checks that `error` is
absent.  The claim that exactly one of `result`/`error` must be present is
therefore false. -/
theorem is_valid_json_rpc_counterexample :
    is_valid_json_rpc parseBoth (chars "resp") = true ∧
    (lookupJ bothFields (chars "result")).isSome = true ∧
    (lookupJ bothFields (chars "error")).isSome = true := by
  refine ⟨rfl, rfl, rfl⟩

theorem envelopeOk_obj_iff (fields : List (PyStr × Json)) :
    envelopeOk (.obj fields) = true ↔
      (lookupJ fields (chars "jsonrpc") = some (.str (chars "2.0")) ∧
       (((lookupJ fields (chars "result")).isSome = true ∧
         (lookupJ fields (chars "id")).isSome = true)
        ∨ (lookupJ fields (chars "result") = none ∧
           ∃ efields, lookupJ fields (chars "error") = some (.obj efields) ∧
             (∃ c, lookupJ efields (chars "code") = some c ∧
               pyIsInstance c .pyInt = true) ∧
             (∃ m, lookupJ efields (chars "message") = some (.str m))))) := by
  simp only [envelopeOk]
  cases hj : lookupJ fields (chars "jsonrpc") with
  | none => simp
  | some v =>
    cases v with
    | str t =>
      dsimp only
      by_cases ht : t = chars "2.0"
      · subst ht
        rw [if_neg (by simp)]
        by_cases hres : (lookupJ fields (chars "result")).isSome = true
        · rcases Option.isSome_iff_exists.mp hres with ⟨rv, hrv⟩
          simp [hrv]
        · have hnone : lookupJ fields (chars "result") = none :=
            Option.not_isSome_iff_eq_none.mp (by simpa using hres)
          cases herr : lookupJ fields (chars "error") with
          | none => simp [hnone]
          | some e =>
            cases e with
            | obj efields =>
              cases hc : lookupJ efields (chars "code") with
              | none => simp [hnone, hc]
              | some c =>
                cases hm : lookupJ efields (chars "message") with
                | none => simp [hnone, hc, hm]
                | some m =>
                  cases m <;> simp [hnone, hc, hm]
            | null => simp [hnone]
            | bool b => simp [hnone]
            | num n => simp [hnone]
            | str u => simp [hnone]
            | arr xs => simp [hnone]
      · simp [ht]
    | null => simp
    | bool b => simp
    | num n => simp
    | arr xs => simp
    | obj gs => simp

/-- C3 (amended): `is_valid_json_rpc` returns `True` exactly when the text
decodes to a JSON object with `jsonrpc = "2.0"` and EITHER a `result` key
together with an `id` key (an `error` key may coexist and is not rejected)
OR no `result` key but an `error` key holding an object whose `code` is a
Python `int` (booleans included, since `bool` subclasses `int`) and whose
`message` is a string. -/
theorem is_valid_json_rpc_characterization (parse : PyStr → Option Json)
    (s : PyStr) :
    is_valid_json_rpc parse s = true ↔
      ∃ fields, parse s = some (.obj fields) ∧
        lookupJ fields (chars "jsonrpc") = some (.str (chars "2.0")) ∧
        (((lookupJ fields (chars "result")).isSome = true ∧
          (lookupJ fields (chars "id")).isSome = true)
         ∨ (lookupJ fields (chars "result") = none ∧
            ∃ efields, lookupJ fields (chars "error") = some (.obj efields) ∧
              (∃ c, lookupJ efields (chars "code") = some c ∧
                pyIsInstance c .pyInt = true) ∧
              (∃ m, lookupJ efields (chars "message") = some (.str m)))) := by
  cases hp : parse s with
  | none => simp [is_valid_json_rpc, hp]
  | some d =>
    simp only [is_valid_json_rpc, hp]
    cases d with
    | obj fields =>
      rw [envelopeOk_obj_iff]
      simp
    | null => simp [envelopeOk]
    | bool b => simp [envelopeOk]
    | num n => simp [envelopeOk]
    | str t => simp [envelopeOk]
    | arr xs => simp [envelopeOk]

/-- Witness for C3 (amended): the characterization applied to the fixture
parse function and success envelope. -/
theorem is_valid_json_rpc_characterization_witness :
    is_valid_json_rpc parseW (chars "good") = true :=
  (is_valid_json_rpc_characterization parseW (chars "good")).mpr
    ⟨envG, rfl, rfl, Or.inl ⟨rfl, rfl⟩⟩
